import Mathlib

/-!
Verification of the safe evacuation-route computation of the
climate-sentinel repository (`backend/main.py`, `generate_evacuation_route.py`).

The embedding mirrors the Python source:
* a road network (an `osmnx` MultiDiGraph) becomes `Graph`: a list of nodes
  with coordinate attributes `y` (latitude) and `x` (longitude), and a list
  of directed edges carrying a `length` attribute (meters, `Nat`);
* `ox.nearest_nodes` becomes `nearest_nodes`: the node minimising squared
  euclidean distance to the query point;
* `nx.ego_graph(G, c, radius, distance='length')` becomes `ego_graph_nodes`:
  the nodes whose shortest path-length distance from `c` is at most the radius;
* `nx.astar_path(G, a, b, weight='length')` becomes `astar_path`: a
  minimum-total-length path search returning `none` exactly when no path
  exists (modelling the `NetworkXNoPath` exception);
* the FastAPI endpoints `get_wildfires` and `calculate_route` become explicit
  state-passing functions over the module-level caches, with exceptions
  modelled by `Except Exc` and the HTTP translation of the two
  `except` clauses at the end of `calculate_route`.

Coordinates are fixed-point integers in units of one ten-thousandth of a
degree — exactly the precision of the source's 4-decimal cache-key
formatting — so the 0.1-degree bounding-box margin is the literal 1000.
Edge lengths are naturals (the source guarantees non-negative lengths).
-/

namespace ClimateSentinel

/-- Attributes of a road node: `y` is latitude, `x` is longitude
(as in the osmnx node attribute dictionary used at `main.py:115`). -/
structure NodeAttr where
  y : Int
  x : Int
deriving DecidableEq

/-- A directed road edge with its `length` attribute in meters. -/
structure Edge where
  src : Nat
  dst : Nat
  length : Nat
deriving DecidableEq

/-- A road network: nodes (id paired with attributes) and directed edges.
Parallel edges are allowed, as in an osmnx MultiDiGraph. -/
structure Graph where
  nodes : List (Nat × NodeAttr)
  edges : List Edge
deriving DecidableEq

/-- The list of node ids of a graph. -/
def nodeIds (G : Graph) : List Nat :=
  G.nodes.map Prod.fst

/-- Well-formedness of a network: every edge endpoint is a node of the
graph (an invariant of every graph the network provider returns). -/
def WFg (G : Graph) : Prop :=
  ∀ e ∈ G.edges, e.src ∈ nodeIds G ∧ e.dst ∈ nodeIds G

instance (G : Graph) : Decidable (WFg G) := by
  unfold WFg; infer_instance

/-- `walkFrom G a b es`: the edge list `es` is a walk in `G` from `a` to `b`. -/
def walkFrom (G : Graph) (a b : Nat) : List Edge → Prop
  | [] => a = b
  | e :: es => e ∈ G.edges ∧ e.src = a ∧ walkFrom G e.dst b es

instance (G : Graph) (a b : Nat) (es : List Edge) :
    Decidable (walkFrom G a b es) := by
  induction es generalizing a with
  | nil => exact inferInstanceAs (Decidable (a = b))
  | cons e es ih => exact @instDecidableAnd _ _ _ (@instDecidableAnd _ _ _ (ih e.dst))

/-- Total length of a walk: the sum of its edges' `length` attributes. -/
def costOf (es : List Edge) : Nat :=
  (es.map Edge.length).sum

/-- Keep the better (cheaper) of an optional previous best and a candidate. -/
def bestOpt : Option (Nat × List Nat) → Nat × List Nat → Option (Nat × List Nat)
  | none, q => some q
  | some p, q => if q.1 < p.1 then some q else some p

/-- The candidate walk contributed by one edge: if `e` leaves `a` and the
recursive search reaches `b` from its head, extend that result by `e`. -/
def candOf (a : Nat) (search : Nat → Option (Nat × List Nat)) (e : Edge) :
    Option (Nat × List Nat) :=
  if e.src = a then
    match search e.dst with
    | some (c, p) => some (e.length + c, a :: p)
    | none => none
  else none

/-- Fold the candidate relaxations over an edge list: for each edge leaving
`a`, extend the recursive search result from its head by that edge. -/
def bestOver (a : Nat) (search : Nat → Option (Nat × List Nat)) :
    List Edge → Option (Nat × List Nat) → Option (Nat × List Nat)
  | [], acc => acc
  | e :: es, acc =>
    match candOf a search e with
    | some q => bestOver a search es (bestOpt acc q)
    | none => bestOver a search es acc

/-- Fuel-bounded minimum-length path search: returns a cheapest walk of at
most `fuel` edges from `a` to `b` together with its cost, or `none` if no
such walk exists. -/
def bestPath (G : Graph) : Nat → Nat → Nat → Option (Nat × List Nat)
  | fuel, a, b =>
    if a = b then some (0, [a]) else
    match fuel with
    | 0 => none
    | Nat.succ f => bestOver a (fun d => bestPath G f d b) G.edges none

/-- Model of `nx.astar_path(G, a, b, weight='length')`: a minimum total
edge-length path between `a` and `b` (with its cost), `none` when no path
exists — the case in which networkx raises `NetworkXNoPath`.  A fuel of
`|nodes|` suffices because a cheapest walk can be taken duplicate-free. -/
def astar_path (G : Graph) (a b : Nat) : Option (Nat × List Nat) :=
  bestPath G (nodeIds G).length a b

/-- Squared euclidean distance from a node's attributes to a query point
(`X` = longitude, `Y` = latitude), the distance minimised by
`ox.nearest_nodes`. -/
def sqDist (a : NodeAttr) (X Y : Int) : Int :=
  (a.x - X) * (a.x - X) + (a.y - Y) * (a.y - Y)

/-- One step of the nearest-node scan: keep whichever of the best-so-far
and the next node is closer to the query point. -/
def nearestStep (X Y : Int) (acc : Option (Nat × NodeAttr)) (n : Nat × NodeAttr) :
    Option (Nat × NodeAttr) :=
  match acc with
  | none => some n
  | some m => if sqDist n.2 X Y < sqDist m.2 X Y then some n else some m

/-- Model of `ox.nearest_nodes(G, X=lon, Y=lat)`: the id of a node of `G`
at minimum distance from the query point (`none` on an empty graph, where
osmnx raises). -/
def nearest_nodes (G : Graph) (X Y : Int) : Option Nat :=
  (G.nodes.foldl (nearestStep X Y) none).map Prod.fst

/-- Model of the node set of `nx.ego_graph(G, center, radius, distance='length')`:
all nodes whose shortest path-length distance from `center` is at most
`radius` (the center itself included). -/
def ego_graph_nodes (G : Graph) (center : Nat) (radius : Nat) : Finset Nat :=
  ((nodeIds G).filter (fun v =>
    match astar_path G center v with
    | some (c, _) => decide (c ≤ radius)
    | none => false)).toFinset

/-- Model of `G_safe = G.copy(); G_safe.remove_nodes_from(list(nodes_to_avoid))`:
drop the excluded nodes and every edge incident to one of them
(`main.py:105-106`). -/
def remove_nodes (G : Graph) (excl : Finset Nat) : Graph where
  nodes := G.nodes.filter (fun p => p.1 ∉ excl)
  edges := G.edges.filter (fun e => e.src ∉ excl ∧ e.dst ∉ excl)

/-- A wildfire record as produced by `get_wildfire_data` (only the fields
`calculate_route` reads, plus `fire_size` for fidelity). -/
structure Hazard where
  latitude : Int
  longitude : Int
  fire_size : Int
deriving DecidableEq

/-- Exceptions that can cross the `try` block of `calculate_route`:
`nx.NetworkXNoPath`, a fastapi `HTTPException` (status, detail), or any
other exception (its message). -/
inductive Exc where
  | noPath : Exc
  | http : Nat → String → Exc
  | other : String → Exc
deriving DecidableEq

deriving instance DecidableEq for Except

/-- The loop of `main.py:97-102`: starting from `nodes_to_avoid = set()`,
for each danger zone `(lon, lat)` strictly inside the bounding box, take the
nearest node of the full network and add every node of its 1000 m ego graph.
`ox.nearest_nodes` on a graph with no nodes raises, which surfaces as an
exception. -/
def excludedLoop (G : Graph) (north south east west : Int) (radius : Nat) :
    List (Int × Int) → Finset Nat → Except Exc (Finset Nat)
  | [], acc => .ok acc
  | (lon, lat) :: zs, acc =>
    if west < lon ∧ lon < east ∧ south < lat ∧ lat < north then
      match nearest_nodes G lon lat with
      | some center =>
          excludedLoop G north south east west radius zs
            (acc ∪ ego_graph_nodes G center radius)
      | none => .error (.other "nearest_nodes: graph has no nodes")
    else excludedLoop G north south east west radius zs acc

/-- The danger-zone and safe-subgraph computation of `main.py:94-102` given
the graph, the bounding box and the hotspots: the set `nodes_to_avoid`. -/
def computeExcludedNodes (G : Graph) (north south east west : Int)
    (radius : Nat) (hotspots : List Hazard) : Except Exc (Finset Nat) :=
  excludedLoop G north south east west radius
    (hotspots.map (fun fire => (fire.longitude, fire.latitude))) ∅

/-- Lines `main.py:104-109`: remove the excluded nodes from a copy of the
network, project start and end onto the nearest node of the safe subgraph,
and run the A* search there.  Returns the node id path `safe_route_nodes`;
`astar_path` returning `none` is the `NetworkXNoPath` exception. -/
def safe_route_nodes (G : Graph) (excl : Finset Nat)
    (startPt endPt : Int × Int) : Except Exc (List Nat) :=
  match nearest_nodes (remove_nodes G excl) startPt.2 startPt.1 with
  | none => .error (.other "nearest_nodes: graph has no nodes")
  | some startNode =>
    match nearest_nodes (remove_nodes G excl) endPt.2 endPt.1 with
    | none => .error (.other "nearest_nodes: graph has no nodes")
    | some endNode =>
      match astar_path (remove_nodes G excl) startNode endNode with
      | some (_, p) => .ok p
      | none => .error .noPath

/-- What an endpoint returns: a route (list of `[lat, lon]` pairs) or an
HTTP error with status code and detail string. -/
inductive ApiResult where
  | ok : List (Int × Int) → ApiResult
  | httpError : Nat → String → ApiResult
deriving DecidableEq

/-- Lookup in an association list (the model of a Python dict). -/
def alookup {κ α : Type} [DecidableEq κ] : List (κ × α) → κ → Option α
  | [], _ => none
  | (k, v) :: rest, k' => if k' = k then some v else alookup rest k'

/-- Canonical rendering of a coordinate for the graph cache key, modelling
the `f"{x:.4f}"` formatting of `main.py:86`: coordinates already live on the
4-decimal grid, so the canonical form is the coordinate itself. -/
def fmt4 (q : Int) : Int :=
  q

/-- The process-wide in-memory caches of `main.py:45-46`. -/
structure ServerState where
  graph_cache : List ((Int × Int × Int × Int) × Graph)
  wildfire_data_cache : List ((Int × String) × List Hazard)
deriving DecidableEq

/-- An external hazard data source: `get_wildfire_data(year, state)`, which
returns `None` (here `none`) on a database error and a (possibly empty)
record list otherwise. -/
def HazardSource : Type := Int → String → Option (List Hazard)

/-- An external network provider: `ox.graph_from_bbox(north, south, east,
west, network_type='drive')`; `none` models the provider raising. -/
def NetProvider : Type := Int → Int → Int → Int → Option Graph

/-- The endpoint `get_wildfires` (`main.py:50-65`): serve from the cache if
present; otherwise query the source and raise `HTTPException(404)` when the
result is falsy (`None` or the empty list), caching only truthy results. -/
def get_wildfires (src : HazardSource)
    (cache : List ((Int × String) × List Hazard)) (year : Int) (state : String) :
    Except Exc (List Hazard) × List ((Int × String) × List Hazard) :=
  match alookup cache (year, state) with
  | some hotspots => (.ok hotspots, cache)
  | none =>
    match src year state with
    | none =>
        (.error (.http 404 "No wildfire data found for the specified year and state."),
         cache)
    | some [] =>
        (.error (.http 404 "No wildfire data found for the specified year and state."),
         cache)
    | some hotspots => (.ok hotspots, ((year, state), hotspots) :: cache)

/-- Lines `main.py:86-92`: look the bounding box up in the graph cache under
its canonicalized key; on a miss ask the provider and populate the cache
(`none` models the provider raising). -/
def obtainGraph (prov : NetProvider)
    (cache : List ((Int × Int × Int × Int) × Graph))
    (north south east west : Int) :
    Option Graph × List ((Int × Int × Int × Int) × Graph) :=
  match alookup cache (fmt4 north, fmt4 south, fmt4 east, fmt4 west) with
  | some G => (some G, cache)
  | none =>
    match prov north south east west with
    | some G => (some G, ((fmt4 north, fmt4 south, fmt4 east, fmt4 west), G) :: cache)
    | none => (none, cache)

/-- Lines `main.py:112-115`: map the node-id route back to `[lat, lon]`
pairs using the attributes of the ORIGINAL network `G` (a missing id would
raise a `KeyError`, modelled by `.error`). -/
def routeCoords (G : Graph) : List Nat → Except Exc (List (Int × Int))
  | [] => .ok []
  | v :: vs =>
    match alookup G.nodes v, routeCoords G vs with
    | some a, .ok rest => .ok ((a.y, a.x) :: rest)
    | none, _ => .error (.other "KeyError")
    | _, .error e => .error e

/-- The two `except` clauses of `calculate_route` (`main.py:119-122`):
`NetworkXNoPath` becomes HTTP 404; every other exception — a fastapi
`HTTPException` raised inside the `try` block included — becomes HTTP 500. -/
def translateExc : Exc → ApiResult
  | .noPath => .httpError 404 "Could not find a safe path."
  | .http s d => .httpError 500 ("An internal server error occurred: " ++ toString s ++ ": " ++ d)
  | .other m => .httpError 500 ("An internal server error occurred: " ++ m)

/-- The request body of `/calculate-route` (`main.py:37-41`): exactly four
coordinate fields, no hazard-source or radius field. -/
structure RouteRequest where
  start_lat : Int
  start_lon : Int
  end_lat : Int
  end_lon : Int
deriving DecidableEq

/-- `calculate_route` with the hazard filter and the danger radius as
parameters; the endpoint instantiates them with the literals `2015`, `'CA'`
and `1000` of `main.py:78,96`.  Returns the HTTP response and the caches
after the call. -/
def calculate_route_with (year : Int) (state : String) (radius : Nat)
    (src : HazardSource) (prov : NetProvider)
    (req : RouteRequest) (s : ServerState) : ApiResult × ServerState :=
  match get_wildfires src s.wildfire_data_cache year state with
  | (.error e, wc) => (translateExc e, { s with wildfire_data_cache := wc })
  | (.ok hotspots, wc) =>
    match obtainGraph prov s.graph_cache
        (max req.start_lat req.end_lat + 1000)
        (min req.start_lat req.end_lat - 1000)
        (max req.start_lon req.end_lon + 1000)
        (min req.start_lon req.end_lon - 1000) with
    | (none, gc) =>
        (translateExc (.other "graph_from_bbox failed"),
         { graph_cache := gc, wildfire_data_cache := wc })
    | (some G, gc) =>
      match computeExcludedNodes G
          (max req.start_lat req.end_lat + 1000)
          (min req.start_lat req.end_lat - 1000)
          (max req.start_lon req.end_lon + 1000)
          (min req.start_lon req.end_lon - 1000) radius hotspots with
      | .error e => (translateExc e, { graph_cache := gc, wildfire_data_cache := wc })
      | .ok nodes_to_avoid =>
        match safe_route_nodes G nodes_to_avoid
            (req.start_lat, req.start_lon) (req.end_lat, req.end_lon) with
        | .error e => (translateExc e, { graph_cache := gc, wildfire_data_cache := wc })
        | .ok p =>
          match routeCoords G p with
          | .error e => (translateExc e, { graph_cache := gc, wildfire_data_cache := wc })
          | .ok coords => (.ok coords, { graph_cache := gc, wildfire_data_cache := wc })

/-- The `/calculate-route` endpoint (`main.py:68-122`): hazards are always
fetched for `year=2015, state='CA'` and the danger radius is the fixed
`danger_radius_meters = 1000`. -/
def calculate_route (src : HazardSource) (prov : NetProvider)
    (req : RouteRequest) (s : ServerState) : ApiResult × ServerState :=
  calculate_route_with 2015 "CA" 1000 src prov req s

/-! ## Concrete fixtures used by witnesses and counterexamples -/

/-- A node attribute at latitude 10.0000, longitude 20.0000 (in 4-decimal
fixed-point units). -/
def wA : NodeAttr := ⟨100000, 200000⟩

/-- A node attribute at (10.0100, 20.0100), slightly north-east of `wA`. -/
def wB : NodeAttr := ⟨100100, 200100⟩

/-- A two-node network with a single 500 m edge. -/
def wG : Graph := ⟨[(1, wA), (2, wB)], [⟨1, 2, 500⟩]⟩

/-- A two-node network with no edges (disconnected). -/
def wG2 : Graph := ⟨[(1, wA), (2, wB)], []⟩

/-- A request from `wA`'s location to `wB`'s location. -/
def wReq : RouteRequest := ⟨100000, 200000, 100100, 200100⟩

/-- A request whose start latitude 200 degrees (2000000 units) is far outside the valid range. -/
def wReqBad : RouteRequest := ⟨2000000, 200000, 100100, 200100⟩

/-- A hazard at longitude 100 degrees: strictly outside every bounding box used by
the fixture requests. -/
def wHazOut : Hazard := ⟨0, 1000000, 5⟩

/-- A hazard exactly at node 1's location. -/
def wHazIn : Hazard := ⟨100000, 200000, 5⟩

/-- The canonical graph-cache key of `wReq`'s bounding box. -/
def wKey : Int × Int × Int × Int :=
  (fmt4 (max wReq.start_lat wReq.end_lat + 1000),
   fmt4 (min wReq.start_lat wReq.end_lat - 1000),
   fmt4 (max wReq.start_lon wReq.end_lon + 1000),
   fmt4 (min wReq.start_lon wReq.end_lon - 1000))

/-- A provider that always returns the connected fixture network. -/
def wProv : NetProvider := fun _ _ _ _ => some wG

/-- A hazard source returning one out-of-box hazard. -/
def wSrc : HazardSource := fun _ _ => some [wHazOut]

/-- A hazard source returning the empty hazard list. -/
def wSrcEmpty : HazardSource := fun _ _ => some []

/-- A hazard source failing like a database error (`None`). -/
def wSrcErr : HazardSource := fun _ _ => none

/-- Caches pre-populated with the connected network and one hazard. -/
def wState : ServerState := ⟨[(wKey, wG)], [((2015, "CA"), [wHazOut])]⟩

/-- Caches pre-populated with the disconnected network and one hazard. -/
def wStateNoPath : ServerState := ⟨[(wKey, wG2)], [((2015, "CA"), [wHazOut])]⟩

/-- Empty caches, as at server start-up. -/
def wStateEmpty : ServerState := ⟨[], []⟩

/-! ## Walk machinery -/

@[simp]
theorem costOf_nil : costOf [] = 0 := rfl

@[simp]
theorem costOf_cons (e : Edge) (es : List Edge) :
    costOf (e :: es) = e.length + costOf es := by
  simp [costOf]

@[simp]
theorem costOf_append (p q : List Edge) :
    costOf (p ++ q) = costOf p + costOf q := by
  simp [costOf]

@[simp]
theorem walkFrom_nil (G : Graph) (a b : Nat) : walkFrom G a b [] ↔ a = b :=
  Iff.rfl

@[simp]
theorem walkFrom_cons (G : Graph) (a b : Nat) (e : Edge) (es : List Edge) :
    walkFrom G a b (e :: es) ↔ e ∈ G.edges ∧ e.src = a ∧ walkFrom G e.dst b es :=
  Iff.rfl

theorem walkFrom_append (G : Graph) (a b : Nat) (p q : List Edge) :
    walkFrom G a b (p ++ q) ↔ ∃ m, walkFrom G a m p ∧ walkFrom G m b q := by
  induction p generalizing a with
  | nil => simp
  | cons e p ih =>
    simp only [List.cons_append, walkFrom_cons, ih]
    constructor
    · rintro ⟨he, hsrc, m, hp, hq⟩
      exact ⟨m, ⟨he, hsrc, hp⟩, hq⟩
    · rintro ⟨m, ⟨he, hsrc, hp⟩, hq⟩
      exact ⟨he, hsrc, m, hp, hq⟩

theorem walkFrom_end (G : Graph) {a m : Nat} {p : List Edge} {e : Edge}
    (h : walkFrom G a m (p ++ [e])) : m = e.dst := by
  obtain ⟨m', -, he, -, hend⟩ := (walkFrom_append G a m p [e]).mp h
  exact hend.symm

theorem mem_map_dst_split {es : List Edge} {x : Nat}
    (h : x ∈ es.map Edge.dst) :
    ∃ es₁ e es₂, es = es₁ ++ e :: es₂ ∧ e.dst = x := by
  obtain ⟨e, he, hdst⟩ := List.mem_map.mp h
  obtain ⟨es₁, es₂, rfl⟩ := List.append_of_mem he
  exact ⟨es₁, e, es₂, rfl, hdst⟩

theorem not_nodup_split {α : Type} {l : List α} (h : ¬ l.Nodup) :
    ∃ x l₁ l₂, l = l₁ ++ x :: l₂ ∧ x ∈ l₂ := by
  induction l with
  | nil => simp at h
  | cons y t ih =>
    by_cases hy : y ∈ t
    · exact ⟨y, [], t, rfl, hy⟩
    · have ht : ¬ t.Nodup := fun hnd => h (List.nodup_cons.mpr ⟨hy, hnd⟩)
      obtain ⟨x, l₁, l₂, rfl, hx⟩ := ih ht
      exact ⟨x, y :: l₁, l₂, rfl, hx⟩

theorem map_eq_append_cons_split {α β : Type} (f : α → β) :
    ∀ {l₁ : List β} {es : List α} {x : β} {l₂ : List β},
    es.map f = l₁ ++ x :: l₂ →
    ∃ es₁ e es₂, es = es₁ ++ e :: es₂ ∧ es₁.map f = l₁ ∧ f e = x ∧ es₂.map f = l₂ := by
  intro l₁
  induction l₁ with
  | nil =>
    intro es x l₂ h
    cases es with
    | nil => simp at h
    | cons e es =>
      simp only [List.map_cons, List.nil_append, List.cons.injEq] at h
      exact ⟨[], e, es, rfl, rfl, h.1, h.2⟩
  | cons y l₁ ih =>
    intro es x l₂ h
    cases es with
    | nil => simp at h
    | cons e es =>
      simp only [List.map_cons, List.cons_append, List.cons.injEq] at h
      obtain ⟨es₁, e', es₂, rfl, h1, h2, h3⟩ := ih h.2
      exact ⟨e :: es₁, e', es₂, rfl, by simp [h.1, h1], h2, h3⟩

theorem walk_cut (G : Graph) {a b : Nat} {es : List Edge}
    (hw : walkFrom G a b es) (hnd : ¬ (a :: es.map Edge.dst).Nodup) :
    ∃ es', walkFrom G a b es' ∧ costOf es' ≤ costOf es ∧ es'.length < es.length := by
  rw [List.nodup_cons] at hnd
  push_neg at hnd
  by_cases ha : a ∈ es.map Edge.dst
  · -- the start node is revisited: drop the loop before its revisit
    obtain ⟨es₁, e, es₂, rfl, hdst⟩ := mem_map_dst_split ha
    obtain ⟨m, -, he, -, hw₂⟩ := (walkFrom_append G a b es₁ (e :: es₂)).mp hw
    rw [hdst] at hw₂
    refine ⟨es₂, hw₂, ?_, ?_⟩ <;> simp <;> omega
  · -- some intermediate node is revisited: splice out the loop between visits
    have hd : ¬ (es.map Edge.dst).Nodup := hnd ha
    obtain ⟨x, l₁, l₂, hsplit, hx⟩ := not_nodup_split hd
    obtain ⟨es₁, e, es₂, rfl, hm₁, hm₂, hm₃⟩ := map_eq_append_cons_split Edge.dst hsplit
    have hw' : walkFrom G a b ((es₁ ++ [e]) ++ es₂) := by
      simpa using hw
    obtain ⟨m, hw₁, hw₂⟩ := (walkFrom_append G a b (es₁ ++ [e]) es₂).mp hw'
    have hmx : m = x := by rw [walkFrom_end G hw₁, hm₂]
    subst hmx
    rw [← hm₃] at hx
    obtain ⟨p, f, q, rfl, hfd⟩ := mem_map_dst_split hx
    obtain ⟨m', -, hf, -, hwq⟩ := (walkFrom_append G m b p (f :: q)).mp hw₂
    rw [hfd, ← hm₂] at hwq
    rw [← hm₂] at hw₁
    have hnew : walkFrom G a b ((es₁ ++ [e]) ++ q) :=
      (walkFrom_append G a b (es₁ ++ [e]) q).mpr ⟨e.dst, hw₁, hwq⟩
    refine ⟨(es₁ ++ [e]) ++ q, hnew, ?_, ?_⟩ <;> simp <;> omega

theorem walk_shorten (G : Graph) (b : Nat) :
    ∀ (n : Nat) (a : Nat) (es : List Edge), es.length ≤ n → walkFrom G a b es →
    ∃ es', walkFrom G a b es' ∧ costOf es' ≤ costOf es ∧
      (a :: es'.map Edge.dst).Nodup := by
  intro n
  induction n with
  | zero =>
    intro a es hlen hw
    rw [Nat.le_zero, List.length_eq_zero] at hlen
    subst hlen
    exact ⟨[], hw, le_refl _, by simp⟩
  | succ n ih =>
    intro a es hlen hw
    by_cases hnd : (a :: es.map Edge.dst).Nodup
    · exact ⟨es, hw, le_refl _, hnd⟩
    · obtain ⟨es₂, hw₂, hc₂, hl₂⟩ := walk_cut G hw hnd
      obtain ⟨es', hw', hc', hnd'⟩ := ih a es₂ (by omega) hw₂
      exact ⟨es', hw', le_trans hc' hc₂, hnd'⟩

/-! ## Correctness of the minimum-length path search -/

theorem bestOpt_le (acc : Option (Nat × List Nat)) (q : Nat × List Nat) :
    ∃ r, bestOpt acc q = some r ∧ r.1 ≤ q.1 ∧
      ∀ p, acc = some p → r.1 ≤ p.1 := by
  cases acc with
  | none => exact ⟨q, rfl, le_refl _, by simp⟩
  | some p =>
    by_cases h : q.1 < p.1
    · refine ⟨q, by simp [bestOpt, h], le_refl _, ?_⟩
      rintro p' ⟨rfl⟩
      exact le_of_lt h
    · refine ⟨p, by simp [bestOpt, h], le_of_not_lt h, ?_⟩
      rintro p' ⟨rfl⟩
      exact le_refl _

theorem bestOpt_eq {acc : Option (Nat × List Nat)} {q r : Nat × List Nat}
    (h : bestOpt acc q = some r) : r = q ∨ acc = some r := by
  cases acc with
  | none => cases h; exact Or.inl rfl
  | some p =>
    by_cases hlt : q.1 < p.1 <;> simp [bestOpt, hlt] at h
    · exact Or.inl h.symm
    · exact Or.inr (by rw [h])

theorem candOf_sound {a : Nat} {search : Nat → Option (Nat × List Nat)}
    {e : Edge} {r : Nat × List Nat} (h : candOf a search e = some r) :
    e.src = a ∧ ∃ c p, search e.dst = some (c, p) ∧ r = (e.length + c, a :: p) := by
  by_cases hsrc : e.src = a
  · refine ⟨hsrc, ?_⟩
    cases hs : search e.dst with
    | none => simp [candOf, hsrc, hs] at h
    | some cp =>
      simp [candOf, hsrc, hs] at h
      exact ⟨cp.1, cp.2, by simp [hs], h.symm⟩
  · simp [candOf, hsrc] at h

theorem candOf_of {a : Nat} {search : Nat → Option (Nat × List Nat)}
    {e : Edge} {c : Nat} {p : List Nat}
    (hsrc : e.src = a) (hs : search e.dst = some (c, p)) :
    candOf a search e = some (e.length + c, a :: p) := by
  simp [candOf, hsrc, hs]

theorem bestOver_mono (a : Nat) (search : Nat → Option (Nat × List Nat)) :
    ∀ (es : List Edge) (acc : Option (Nat × List Nat)) (p : Nat × List Nat),
    acc = some p → ∃ r, bestOver a search es acc = some r ∧ r.1 ≤ p.1 := by
  intro es
  induction es with
  | nil =>
    intro acc p h
    exact ⟨p, by simp [bestOver, h], le_refl _⟩
  | cons e es ih =>
    intro acc p h
    cases hc : candOf a search e with
    | none =>
      rw [show bestOver a search (e :: es) acc = bestOver a search es acc by
        simp [bestOver, hc]]
      exact ih acc p h
    | some q =>
      rw [show bestOver a search (e :: es) acc = bestOver a search es (bestOpt acc q) by
        simp [bestOver, hc]]
      obtain ⟨r₀, hr₀, -, hmin⟩ := bestOpt_le acc q
      obtain ⟨r, hr, hle⟩ := ih _ r₀ hr₀
      exact ⟨r, hr, le_trans hle (hmin p h)⟩

theorem bestOver_le (a : Nat) (search : Nat → Option (Nat × List Nat)) :
    ∀ (es : List Edge) (acc : Option (Nat × List Nat)) (e : Edge)
      (q : Nat × List Nat), e ∈ es → candOf a search e = some q →
    ∃ r, bestOver a search es acc = some r ∧ r.1 ≤ q.1 := by
  intro es
  induction es with
  | nil => intro acc e q h; simp at h
  | cons e₀ es ih =>
    intro acc e q hmem hcand
    rcases List.mem_cons.mp hmem with rfl | htail
    · rw [show bestOver a search (e :: es) acc = bestOver a search es (bestOpt acc q) by
        simp [bestOver, hcand]]
      obtain ⟨r₀, hr₀, hq, -⟩ := bestOpt_le acc q
      obtain ⟨r, hr, hle⟩ := bestOver_mono a search es _ r₀ hr₀
      exact ⟨r, hr, le_trans hle hq⟩
    · cases hc : candOf a search e₀ with
      | none =>
        rw [show bestOver a search (e₀ :: es) acc = bestOver a search es acc by
          simp [bestOver, hc]]
        exact ih acc e q htail hcand
      | some q₀ =>
        rw [show bestOver a search (e₀ :: es) acc
            = bestOver a search es (bestOpt acc q₀) by simp [bestOver, hc]]
        exact ih _ e q htail hcand

theorem bestOver_sound (a : Nat) (search : Nat → Option (Nat × List Nat)) :
    ∀ (es : List Edge) (acc : Option (Nat × List Nat)) (r : Nat × List Nat),
    bestOver a search es acc = some r →
    acc = some r ∨ ∃ e ∈ es, candOf a search e = some r := by
  intro es
  induction es with
  | nil =>
    intro acc r h
    exact Or.inl (by simpa [bestOver] using h)
  | cons e es ih =>
    intro acc r h
    cases hc : candOf a search e with
    | none =>
      rw [show bestOver a search (e :: es) acc = bestOver a search es acc by
        simp [bestOver, hc]] at h
      rcases ih acc r h with h' | ⟨e', he', hc'⟩
      · exact Or.inl h'
      · exact Or.inr ⟨e', List.mem_cons_of_mem _ he', hc'⟩
    | some q =>
      rw [show bestOver a search (e :: es) acc = bestOver a search es (bestOpt acc q) by
        simp [bestOver, hc]] at h
      rcases ih _ r h with h' | ⟨e', he', hc'⟩
      · rcases bestOpt_eq h' with rfl | hacc
        · exact Or.inr ⟨e, List.mem_cons_self _ _, hc⟩
        · exact Or.inl hacc
      · exact Or.inr ⟨e', List.mem_cons_of_mem _ he', hc'⟩

theorem bestPath_self (G : Graph) (fuel a : Nat) :
    bestPath G fuel a a = some (0, [a]) := by
  cases fuel <;> simp [bestPath]

theorem bestPath_zero (G : Graph) {a b : Nat} (h : a ≠ b) :
    bestPath G 0 a b = none := by
  simp [bestPath, h]

theorem bestPath_succ (G : Graph) (f : Nat) {a b : Nat} (h : a ≠ b) :
    bestPath G (f + 1) a b
      = bestOver a (fun d => bestPath G f d b) G.edges none := by
  simp [bestPath, h]

theorem bestPath_sound (G : Graph) (b : Nat) :
    ∀ (fuel a c : Nat) (p : List Nat), bestPath G fuel a b = some (c, p) →
    ∃ es, walkFrom G a b es ∧ costOf es = c ∧ p = a :: es.map Edge.dst := by
  intro fuel
  induction fuel with
  | zero =>
    intro a c p h
    by_cases hab : a = b
    · subst hab
      rw [bestPath_self] at h
      obtain ⟨rfl, rfl⟩ : c = 0 ∧ p = [a] := by
        constructor <;> cases h <;> rfl
      exact ⟨[], rfl, rfl, rfl⟩
    · rw [bestPath_zero G hab] at h
      cases h
  | succ f ih =>
    intro a c p h
    by_cases hab : a = b
    · subst hab
      rw [bestPath_self] at h
      obtain ⟨rfl, rfl⟩ : c = 0 ∧ p = [a] := by
        constructor <;> cases h <;> rfl
      exact ⟨[], rfl, rfl, rfl⟩
    · rw [bestPath_succ G f hab] at h
      rcases bestOver_sound a _ G.edges none (c, p) h with h' | ⟨e, he, hc⟩
      · cases h'
      · obtain ⟨hsrc, c', p', hs, hr⟩ := candOf_sound hc
        obtain ⟨rfl, rfl⟩ : c = e.length + c' ∧ p = a :: p' := by
          constructor <;> cases hr <;> rfl
        obtain ⟨es', hw', hc', rfl⟩ := ih e.dst c' p' hs
        exact ⟨e :: es', ⟨he, hsrc, hw'⟩, by simp [hc'], by simp⟩

theorem bestPath_opt (G : Graph) (b : Nat) :
    ∀ (fuel a : Nat) (es : List Edge), walkFrom G a b es → es.length ≤ fuel →
    ∃ r, bestPath G fuel a b = some r ∧ r.1 ≤ costOf es := by
  intro fuel
  induction fuel with
  | zero =>
    intro a es hw hlen
    rw [Nat.le_zero, List.length_eq_zero] at hlen
    subst hlen
    obtain rfl : a = b := hw
    exact ⟨(0, [a]), bestPath_self G 0 a, Nat.zero_le _⟩
  | succ f ih =>
    intro a es hw hlen
    by_cases hab : a = b
    · subst hab
      exact ⟨(0, [a]), bestPath_self G _ a, Nat.zero_le _⟩
    · cases es with
      | nil => exact absurd hw hab
      | cons e es' =>
        obtain ⟨he, hsrc, hw'⟩ := hw
        obtain ⟨r', hr', hle'⟩ := ih e.dst es' hw' (by simp at hlen; omega)
        have hcand : candOf a (fun d => bestPath G f d b) e
            = some (e.length + r'.1, a :: r'.2) :=
          candOf_of hsrc (by rw [hr'])
        obtain ⟨r, hr, hle⟩ := bestOver_le a _ G.edges none e _ he hcand
        rw [bestPath_succ G f hab]
        exact ⟨r, hr, by simp; omega⟩

theorem walk_dst_mem (G : Graph) (hWF : WFg G) (b : Nat) :
    ∀ (es : List Edge) (a : Nat), walkFrom G a b es →
    ∀ v ∈ es.map Edge.dst, v ∈ nodeIds G := by
  intro es
  induction es with
  | nil => intro a _ v hv; simp at hv
  | cons e es ih =>
    intro a hw v hv
    obtain ⟨he, -, hw'⟩ := hw
    rw [List.map_cons] at hv
    rcases List.mem_cons.mp hv with rfl | htail
    · exact (hWF e he).2
    · exact ih e.dst hw' v htail

theorem nodup_length_le {l l' : List Nat} (hnd : l.Nodup)
    (hsub : ∀ x ∈ l, x ∈ l') : l.length ≤ l'.length := by
  calc l.length = l.toFinset.card := (List.toFinset_card_of_nodup hnd).symm
    _ ≤ l'.toFinset.card := Finset.card_le_card (fun x hx =>
        List.mem_toFinset.mpr (hsub x (List.mem_toFinset.mp hx)))
    _ ≤ l'.length := List.toFinset_card_le l'

theorem walk_length_bound (G : Graph) (hWF : WFg G) {a b : Nat} {es : List Edge}
    (hw : walkFrom G a b es) (hnd : (a :: es.map Edge.dst).Nodup) :
    es.length ≤ (nodeIds G).length := by
  cases es with
  | nil => simp
  | cons e es' =>
    have hsub : ∀ x ∈ a :: (e :: es').map Edge.dst, x ∈ nodeIds G := by
      intro x hx
      rcases List.mem_cons.mp hx with rfl | hx'
      · obtain ⟨he, hsrc, -⟩ := hw
        rw [← hsrc]
        exact (hWF e he).1
      · exact walk_dst_mem G hWF b (e :: es') a hw x hx'
    have := nodup_length_le hnd hsub
    simp at this ⊢
    omega

/-- `astar_path` is a complete, optimal shortest-path search: whenever any
walk from `a` to `b` exists in a well-formed graph, it returns a cost `c`
and node path `p` such that `c` is realised by an actual walk tracing `p`,
and `c` is a lower bound on the length of every walk from `a` to `b`. -/
theorem astar_path_min (G : Graph) (hWF : WFg G) {a b : Nat} {es₀ : List Edge}
    (hw₀ : walkFrom G a b es₀) :
    ∃ c p, astar_path G a b = some (c, p) ∧
      (∃ es, walkFrom G a b es ∧ costOf es = c ∧ p = a :: es.map Edge.dst) ∧
      ∀ es', walkFrom G a b es' → c ≤ costOf es' := by
  obtain ⟨es₁, hw₁, -, hnd₁⟩ := walk_shorten G b es₀.length a es₀ (le_refl _) hw₀
  obtain ⟨r, hr, -⟩ := bestPath_opt G b (nodeIds G).length a es₁ hw₁
    (walk_length_bound G hWF hw₁ hnd₁)
  obtain ⟨es, hwes, hces, hpes⟩ := bestPath_sound G b (nodeIds G).length a r.1 r.2
    (by rw [← hr])
  refine ⟨r.1, r.2, by simpa [astar_path] using hr, ⟨es, hwes, hces, hpes⟩, ?_⟩
  intro es' hw'
  obtain ⟨es₂, hw₂, hc₂, hnd₂⟩ := walk_shorten G b es'.length a es' (le_refl _) hw'
  obtain ⟨r₂, hr₂, hle₂⟩ := bestPath_opt G b (nodeIds G).length a es₂ hw₂
    (walk_length_bound G hWF hw₂ hnd₂)
  rw [hr] at hr₂
  cases hr₂
  exact le_trans hle₂ hc₂

/-- `astar_path` returns `none` exactly on the inputs where networkx raises
`NetworkXNoPath`: when no walk connects `a` to `b`. -/
theorem astar_path_eq_none (G : Graph) {a b : Nat}
    (h : ¬ ∃ es, walkFrom G a b es) : astar_path G a b = none := by
  cases hr : astar_path G a b with
  | none => rfl
  | some r =>
    obtain ⟨es, hw, -, -⟩ := bestPath_sound G b (nodeIds G).length a r.1 r.2
      (by simpa [astar_path] using hr)
    exact absurd ⟨es, hw⟩ h

/-- Every node on a path returned by `astar_path` is a node of the graph
searched. -/
theorem astar_path_nodes_mem (G : Graph) (hWF : WFg G) {a b c : Nat}
    {p : List Nat} (h : astar_path G a b = some (c, p)) (ha : a ∈ nodeIds G) :
    ∀ v ∈ p, v ∈ nodeIds G := by
  obtain ⟨es, hw, -, rfl⟩ := bestPath_sound G b (nodeIds G).length a c p
    (by simpa [astar_path] using h)
  intro v hv
  rcases List.mem_cons.mp hv with rfl | hv'
  · exact ha
  · exact walk_dst_mem G hWF b es a hw v hv'

/-! ## The safe subgraph and nearest-node projection -/

@[simp]
theorem mem_nodeIds_remove (G : Graph) (excl : Finset Nat) (v : Nat) :
    v ∈ nodeIds (remove_nodes G excl) ↔ v ∈ nodeIds G ∧ v ∉ excl := by
  simp only [nodeIds, remove_nodes, List.mem_map, List.mem_filter]
  constructor
  · rintro ⟨p, ⟨hp, hd⟩, rfl⟩
    exact ⟨⟨p, hp, rfl⟩, by simpa using hd⟩
  · rintro ⟨⟨p, hp, rfl⟩, hd⟩
    exact ⟨p, ⟨hp, by simpa using hd⟩, rfl⟩

theorem WFg_remove (G : Graph) (excl : Finset Nat) (h : WFg G) :
    WFg (remove_nodes G excl) := by
  intro e he
  simp only [remove_nodes, List.mem_filter, decide_eq_true_eq] at he
  obtain ⟨he', hs, hd⟩ := he
  rw [mem_nodeIds_remove, mem_nodeIds_remove]
  exact ⟨⟨(h e he').1, hs⟩, ⟨(h e he').2, hd⟩⟩

theorem nearest_fold_mem (X Y : Int) :
    ∀ (l : List (Nat × NodeAttr)) (acc : Option (Nat × NodeAttr))
      (r : Nat × NodeAttr), l.foldl (nearestStep X Y) acc = some r →
    acc = some r ∨ r ∈ l := by
  intro l
  induction l with
  | nil => intro acc r h; exact Or.inl (by simpa using h)
  | cons n l ih =>
    intro acc r h
    rcases ih (nearestStep X Y acc n) r (by simpa using h) with h' | h'
    · cases acc with
      | none =>
        cases h'
        exact Or.inr (List.mem_cons_self _ _)
      | some m =>
        by_cases hlt : sqDist n.2 X Y < sqDist m.2 X Y <;>
          simp [nearestStep, hlt] at h'
        · exact Or.inr (by simp [← h'])
        · exact Or.inl (by rw [h'])
    · exact Or.inr (List.mem_cons_of_mem _ h')

theorem nearest_fold_min (X Y : Int) :
    ∀ (l : List (Nat × NodeAttr)) (acc : Option (Nat × NodeAttr))
      (r : Nat × NodeAttr), l.foldl (nearestStep X Y) acc = some r →
    (∀ m, acc = some m → sqDist r.2 X Y ≤ sqDist m.2 X Y) ∧
    ∀ n ∈ l, sqDist r.2 X Y ≤ sqDist n.2 X Y := by
  intro l
  induction l with
  | nil =>
    intro acc r h
    refine ⟨?_, by simp⟩
    rintro m rfl
    cases h
    exact le_refl _
  | cons n l ih =>
    intro acc r h
    obtain ⟨hacc, hl⟩ := ih (nearestStep X Y acc n) r (by simpa using h)
    have hstep : ∀ m, nearestStep X Y acc n = some m →
        sqDist r.2 X Y ≤ sqDist m.2 X Y := hacc
    have hn : sqDist r.2 X Y ≤ sqDist n.2 X Y := by
      cases acc with
      | none => exact hstep n rfl
      | some m =>
        by_cases hlt : sqDist n.2 X Y < sqDist m.2 X Y
        · exact hstep n (by simp [nearestStep, hlt])
        · exact le_trans (hstep m (by simp [nearestStep, hlt])) (le_of_not_lt hlt)
    refine ⟨?_, ?_⟩
    · rintro m rfl
      by_cases hlt : sqDist n.2 X Y < sqDist m.2 X Y
      · exact le_trans (hstep n (by simp [nearestStep, hlt])) (le_of_lt hlt)
      · exact hstep m (by simp [nearestStep, hlt])
    · intro n' hn'
      rcases List.mem_cons.mp hn' with rfl | htail
      · exact hn
      · exact hl n' htail

/-- `nearest_nodes` returns a node of the graph, together with its
attributes, minimising the distance to the query point over all nodes. -/
theorem nearest_nodes_spec (G : Graph) (X Y : Int) {n : Nat}
    (h : nearest_nodes G X Y = some n) :
    ∃ a, (n, a) ∈ G.nodes ∧ ∀ p ∈ G.nodes, sqDist a X Y ≤ sqDist p.2 X Y := by
  obtain ⟨r, hr, rfl⟩ := Option.map_eq_some'.mp h
  rcases nearest_fold_mem X Y G.nodes none r hr with h' | h'
  · cases h'
  · exact ⟨r.2, h', (nearest_fold_min X Y G.nodes none r hr).2⟩

/-- The node id returned by `nearest_nodes` is a node of the graph. -/
theorem nearest_nodes_mem (G : Graph) (X Y : Int) {n : Nat}
    (h : nearest_nodes G X Y = some n) : n ∈ nodeIds G := by
  obtain ⟨a, ha, -⟩ := nearest_nodes_spec G X Y h
  exact List.mem_map.mpr ⟨(n, a), ha, rfl⟩

/-- Inversion of a successful `safe_route_nodes` run: both endpoints were
projected (via `nearest_nodes`) onto the safe subgraph and the A* search on
the safe subgraph produced the path. -/
theorem safe_route_nodes_ok {G : Graph} {excl : Finset Nat}
    {startPt endPt : Int × Int} {p : List Nat}
    (h : safe_route_nodes G excl startPt endPt = .ok p) :
    ∃ s t c, nearest_nodes (remove_nodes G excl) startPt.2 startPt.1 = some s ∧
      nearest_nodes (remove_nodes G excl) endPt.2 endPt.1 = some t ∧
      astar_path (remove_nodes G excl) s t = some (c, p) := by
  unfold safe_route_nodes at h
  split at h
  · exact Except.noConfusion h
  · rename_i s hs
    split at h
    · exact Except.noConfusion h
    · rename_i t ht
      split at h
      · rename_i c q hp
        cases h
        exact ⟨s, t, c, hs, ht, hp⟩
      · exact Except.noConfusion h

/-! ## Claim theorems -/

/-- C1: for every network, every excluded-node set computed from the
hazards, and every pair of endpoint coordinates, if the route computation
of `calculate_route` returns a route then no node on the returned node path
is a member of the excluded-node set. -/
theorem claim_C1_route_avoids_excluded (G : Graph) (hWF : WFg G)
    (north south east west : Int) (radius : Nat) (hotspots : List Hazard)
    (excl : Finset Nat) (startPt endPt : Int × Int) (p : List Nat)
    (_hexcl : computeExcludedNodes G north south east west radius hotspots = .ok excl)
    (hroute : safe_route_nodes G excl startPt endPt = .ok p) :
    ∀ v ∈ p, v ∉ excl := by
  obtain ⟨s, t, c, hs, ht, hp⟩ := safe_route_nodes_ok hroute
  have hsmem : s ∈ nodeIds (remove_nodes G excl) := nearest_nodes_mem _ _ _ hs
  intro v hv
  have hvmem : v ∈ nodeIds (remove_nodes G excl) :=
    astar_path_nodes_mem (remove_nodes G excl) (WFg_remove G excl hWF)
      hp hsmem v hv
  exact ((mem_nodeIds_remove G excl v).mp hvmem).2

/-- Witness for C1: on the two-node fixture network, a hazard at node 1
with radius 300 excludes exactly node 1, and the returned route `[2]`
avoids it. -/
theorem claim_C1_witness :
    WFg wG ∧
    computeExcludedNodes wG 110000 90000 210000 190000 300 [wHazIn] = .ok {1} ∧
    safe_route_nodes wG {1} (100000, 200000) (100100, 200100) = .ok [2] ∧
    ∀ v ∈ [2], v ∉ ({1} : Finset Nat) :=
  ⟨by decide, by decide, by decide,
    claim_C1_route_avoids_excluded wG (by decide) 110000 90000 210000 190000 300 [wHazIn] {1}
      (100000, 200000) (100100, 200100) [2] (by decide) (by decide)⟩

/-- C2: on every safe subgraph (whose edge lengths are non-negative by
construction: they are naturals) and for every pair of nodes connected by
some walk, the A* search returns a path realised in the safe subgraph whose
total edge length is a lower bound on the total edge length of every walk
between the two nodes. -/
theorem claim_C2_route_minimal (G : Graph) (excl : Finset Nat) (hWF : WFg G)
    (a b : Nat) (es₀ : List Edge)
    (hw₀ : walkFrom (remove_nodes G excl) a b es₀) :
    ∃ c p, astar_path (remove_nodes G excl) a b = some (c, p) ∧
      (∃ es, walkFrom (remove_nodes G excl) a b es ∧ costOf es = c ∧
        p = a :: es.map Edge.dst) ∧
      ∀ es', walkFrom (remove_nodes G excl) a b es' → c ≤ costOf es' :=
  astar_path_min (remove_nodes G excl) (WFg_remove G excl hWF) hw₀

/-- Witness for C2 at the connected fixture network with nothing excluded. -/
theorem claim_C2_witness :
    WFg wG ∧ walkFrom (remove_nodes wG ∅) 1 2 [⟨1, 2, 500⟩] ∧
    (∃ c p, astar_path (remove_nodes wG ∅) 1 2 = some (c, p) ∧
      (∃ es, walkFrom (remove_nodes wG ∅) 1 2 es ∧ costOf es = c ∧
        p = 1 :: es.map Edge.dst) ∧
      ∀ es', walkFrom (remove_nodes wG ∅) 1 2 es' → c ≤ costOf es') :=
  ⟨by decide, by decide,
    claim_C2_route_minimal wG ∅ (by decide) 1 2 [⟨1, 2, 500⟩] (by decide)⟩

/-- C3: whenever the route computation succeeds, both endpoints were
projected by `nearest_nodes` onto the safe subgraph `remove_nodes G excl`
(not onto the original network): each projected endpoint is a node of the
safe subgraph at minimal distance from the request coordinate among the
safe nodes, and in particular is not an excluded node — even when the
node of the original network nearest to the coordinate is excluded. -/
theorem claim_C3_projection_safe (G : Graph) (excl : Finset Nat)
    (startPt endPt : Int × Int) (p : List Nat)
    (h : safe_route_nodes G excl startPt endPt = .ok p) :
    ∃ s t, nearest_nodes (remove_nodes G excl) startPt.2 startPt.1 = some s ∧
      nearest_nodes (remove_nodes G excl) endPt.2 endPt.1 = some t ∧
      s ∉ excl ∧ t ∉ excl ∧
      (∃ a, (s, a) ∈ (remove_nodes G excl).nodes ∧
        ∀ q ∈ (remove_nodes G excl).nodes,
          sqDist a startPt.2 startPt.1 ≤ sqDist q.2 startPt.2 startPt.1) ∧
      (∃ a, (t, a) ∈ (remove_nodes G excl).nodes ∧
        ∀ q ∈ (remove_nodes G excl).nodes,
          sqDist a endPt.2 endPt.1 ≤ sqDist q.2 endPt.2 endPt.1) := by
  obtain ⟨s, t, c, hs, ht, -⟩ := safe_route_nodes_ok h
  refine ⟨s, t, hs, ht, ?_, ?_, nearest_nodes_spec _ _ _ hs,
    nearest_nodes_spec _ _ _ ht⟩
  · exact ((mem_nodeIds_remove G excl s).mp (nearest_nodes_mem _ _ _ hs)).2
  · exact ((mem_nodeIds_remove G excl t).mp (nearest_nodes_mem _ _ _ ht)).2

/-- Witness for C3: node 1 is the nearest node of the original network to
the start coordinate, but it is excluded; the projection falls back to the
safe node 2. -/
theorem claim_C3_witness :
    safe_route_nodes wG {1} (100000, 200000) (100100, 200100) = .ok [2] ∧
    nearest_nodes wG 200000 100000 = some 1 ∧
    (∃ s t, nearest_nodes (remove_nodes wG {1}) 200000 100000 = some s ∧
      nearest_nodes (remove_nodes wG {1}) 200100 100100 = some t ∧
      s ∉ ({1} : Finset Nat) ∧ t ∉ ({1} : Finset Nat) ∧
      (∃ a, (s, a) ∈ (remove_nodes wG {1}).nodes ∧
        ∀ q ∈ (remove_nodes wG {1}).nodes,
          sqDist a 200000 100000 ≤ sqDist q.2 200000 100000) ∧
      (∃ a, (t, a) ∈ (remove_nodes wG {1}).nodes ∧
        ∀ q ∈ (remove_nodes wG {1}).nodes,
          sqDist a 200100 100100 ≤ sqDist q.2 200100 100100)) :=
  ⟨by decide, by decide,
    claim_C3_projection_safe wG {1} (100000, 200000) (100100, 200100) [2] (by decide)⟩

/-- The node set of an ego graph grows (weakly) with the radius. -/
theorem ego_graph_nodes_mono (G : Graph) (center : Nat) {r₁ r₂ : Nat}
    (hr : r₁ ≤ r₂) : ego_graph_nodes G center r₁ ⊆ ego_graph_nodes G center r₂ := by
  intro v hv
  simp only [ego_graph_nodes, List.mem_toFinset, List.mem_filter] at hv ⊢
  obtain ⟨hvmem, hcond⟩ := hv
  refine ⟨hvmem, ?_⟩
  cases hp : astar_path G center v with
  | none => rw [hp] at hcond; cases hcond
  | some r =>
    obtain ⟨c, q⟩ := r
    rw [hp] at hcond
    simp only [decide_eq_true_eq] at hcond ⊢
    omega

/-- The exclusion loop is monotone: a larger radius and a larger
accumulator produce a larger excluded set. -/
theorem excludedLoop_mono (G : Graph) (north south east west : Int)
    {r₁ r₂ : Nat} (hr : r₁ ≤ r₂) :
    ∀ (dz : List (Int × Int)) (acc₁ acc₂ S₁ S₂ : Finset Nat), acc₁ ⊆ acc₂ →
    excludedLoop G north south east west r₁ dz acc₁ = .ok S₁ →
    excludedLoop G north south east west r₂ dz acc₂ = .ok S₂ →
    S₁ ⊆ S₂ := by
  intro dz
  induction dz with
  | nil =>
    intro acc₁ acc₂ S₁ S₂ hacc h₁ h₂
    cases h₁; cases h₂
    exact hacc
  | cons z zs ih =>
    intro acc₁ acc₂ S₁ S₂ hacc h₁ h₂
    obtain ⟨lon, lat⟩ := z
    by_cases hin : west < lon ∧ lon < east ∧ south < lat ∧ lat < north
    · rw [excludedLoop, if_pos hin] at h₁ h₂
      cases hn : nearest_nodes G lon lat with
      | none => rw [hn] at h₁; cases h₁
      | some center =>
        rw [hn] at h₁ h₂
        exact ih _ _ S₁ S₂
          (Finset.union_subset_union hacc (ego_graph_nodes_mono G center hr)) h₁ h₂
    · rw [excludedLoop, if_neg hin] at h₁ h₂
      exact ih _ _ S₁ S₂ hacc h₁ h₂

/-- C6: the excluded-node set computed by the danger-zone loop of
`calculate_route` is monotonically non-decreasing in the danger radius:
for radii `r₁ ≤ r₂` (non-negativity is intrinsic: radii are naturals), the
set computed with `r₁` is a subset of the set computed with `r₂`. -/
theorem claim_C6_excluded_monotone (G : Graph) (north south east west : Int)
    (hotspots : List Hazard) (r₁ r₂ : Nat) (S₁ S₂ : Finset Nat) (hr : r₁ ≤ r₂)
    (h₁ : computeExcludedNodes G north south east west r₁ hotspots = .ok S₁)
    (h₂ : computeExcludedNodes G north south east west r₂ hotspots = .ok S₂) :
    S₁ ⊆ S₂ :=
  excludedLoop_mono G north south east west hr _ ∅ ∅ S₁ S₂
    (Finset.Subset.refl ∅) h₁ h₂

/-- Witness for C6: radius 300 excludes `{1}`, radius 1000 excludes `{1, 2}`
on the connected fixture network. -/
theorem claim_C6_witness :
    (300 ≤ 1000) ∧
    computeExcludedNodes wG 110000 90000 210000 190000 300 [wHazIn] = .ok {1} ∧
    computeExcludedNodes wG 110000 90000 210000 190000 1000 [wHazIn] = .ok {1, 2} ∧
    ({1} : Finset Nat) ⊆ {1, 2} :=
  ⟨by decide, by decide, by decide,
    claim_C6_excluded_monotone wG 110000 90000 210000 190000 [wHazIn] 300 1000
      {1} {1, 2} (by decide) (by decide) (by decide)⟩

/-- A danger zone strictly outside the bounding box is skipped by the
exclusion loop wherever it occurs in the zone list. -/
theorem excludedLoop_skip (G : Graph) (north south east west : Int)
    (radius : Nat) (lon lat : Int)
    (hout : lon < west ∨ east < lon ∨ lat < south ∨ north < lat) :
    ∀ (dz₁ dz₂ : List (Int × Int)) (acc : Finset Nat),
    excludedLoop G north south east west radius (dz₁ ++ (lon, lat) :: dz₂) acc
      = excludedLoop G north south east west radius (dz₁ ++ dz₂) acc := by
  have hnot : ¬ (west < lon ∧ lon < east ∧ south < lat ∧ lat < north) := by
    rintro ⟨h₁, h₂, h₃, h₄⟩
    rcases hout with h | h | h | h <;> omega
  intro dz₁
  induction dz₁ with
  | nil =>
    intro dz₂ acc
    rw [List.nil_append, List.nil_append, excludedLoop, if_neg hnot]
  | cons z zs ih =>
    intro dz₂ acc
    obtain ⟨lon', lat'⟩ := z
    by_cases hin : west < lon' ∧ lon' < east ∧ south < lat' ∧ lat' < north
    · rw [List.cons_append, excludedLoop, if_pos hin,
        List.cons_append, excludedLoop, if_pos hin]
      cases hn : nearest_nodes G lon' lat' with
      | none => rfl
      | some center => exact ih dz₂ _
    · rw [List.cons_append, excludedLoop, if_neg hin,
        List.cons_append, excludedLoop, if_neg hin]
      exact ih dz₂ acc

/-- C8: a hazard point strictly outside the request's bounding box (the
start/end extremes plus the 0.1-degree margin, i.e. 1000 fixed-point units)
contributes nothing: the excluded-node computation with the hazard present
equals the one with it removed, wherever it occurs in the hazard list. -/
theorem claim_C8_outside_hazard_noop (G : Graph) (req : RouteRequest)
    (radius : Nat) (hs₁ hs₂ : List Hazard) (fire : Hazard)
    (hout : fire.longitude < min req.start_lon req.end_lon - 1000
          ∨ max req.start_lon req.end_lon + 1000 < fire.longitude
          ∨ fire.latitude < min req.start_lat req.end_lat - 1000
          ∨ max req.start_lat req.end_lat + 1000 < fire.latitude) :
    computeExcludedNodes G (max req.start_lat req.end_lat + 1000)
        (min req.start_lat req.end_lat - 1000)
        (max req.start_lon req.end_lon + 1000)
        (min req.start_lon req.end_lon - 1000) radius (hs₁ ++ fire :: hs₂)
      = computeExcludedNodes G (max req.start_lat req.end_lat + 1000)
        (min req.start_lat req.end_lat - 1000)
        (max req.start_lon req.end_lon + 1000)
        (min req.start_lon req.end_lon - 1000) radius (hs₁ ++ hs₂) := by
  unfold computeExcludedNodes
  rw [List.map_append, List.map_cons, List.map_append]
  exact excludedLoop_skip G _ _ _ _ radius fire.longitude fire.latitude hout
    (hs₁.map (fun fire => (fire.longitude, fire.latitude)))
    (hs₂.map (fun fire => (fire.longitude, fire.latitude))) ∅

/-- Witness for C8: the hazard at longitude 100 degrees is strictly east of
`wReq`'s bounding box and leaves the excluded set of `[wHazIn]` unchanged. -/
theorem claim_C8_witness :
    (wHazOut.longitude < min wReq.start_lon wReq.end_lon - 1000
      ∨ max wReq.start_lon wReq.end_lon + 1000 < wHazOut.longitude
      ∨ wHazOut.latitude < min wReq.start_lat wReq.end_lat - 1000
      ∨ max wReq.start_lat wReq.end_lat + 1000 < wHazOut.latitude) ∧
    computeExcludedNodes wG (max wReq.start_lat wReq.end_lat + 1000)
        (min wReq.start_lat wReq.end_lat - 1000)
        (max wReq.start_lon wReq.end_lon + 1000)
        (min wReq.start_lon wReq.end_lon - 1000) 1000 ([wHazIn] ++ wHazOut :: [])
      = computeExcludedNodes wG (max wReq.start_lat wReq.end_lat + 1000)
        (min wReq.start_lat wReq.end_lat - 1000)
        (max wReq.start_lon wReq.end_lon + 1000)
        (min wReq.start_lon wReq.end_lon - 1000) 1000 ([wHazIn] ++ []) :=
  ⟨by decide,
    claim_C8_outside_hazard_noop wG wReq 1000 [wHazIn] [] wHazOut (by decide)⟩

/-- `obtainGraph` never overwrites an existing cache entry: it serves hits
from the cache and inserts only keys that were previously absent. -/
theorem obtainGraph_preserves (prov : NetProvider)
    (cache : List ((Int × Int × Int × Int) × Graph)) (north south east west : Int)
    {k : Int × Int × Int × Int} {G₀ : Graph}
    (h : alookup cache k = some G₀) :
    alookup (obtainGraph prov cache north south east west).2 k = some G₀ := by
  unfold obtainGraph
  cases hl : alookup cache (fmt4 north, fmt4 south, fmt4 east, fmt4 west) with
  | some G => exact h
  | none =>
    cases hp : prov north south east west with
    | none => exact h
    | some G =>
      show alookup (((fmt4 north, fmt4 south, fmt4 east, fmt4 west), G) :: cache) k
        = some G₀
      by_cases hk : k = (fmt4 north, fmt4 south, fmt4 east, fmt4 west)
      · rw [hk] at h
        rw [h] at hl
        cases hl
      · simp only [alookup, if_neg hk]
        exact h

/-- C7: `calculate_route` never mutates a cached network: any entry of the
graph cache before the call — its node list with attributes and its edge
list — is still found unchanged under the same key after the call; the safe
subgraph is built on a separately constructed copy. -/
theorem claim_C7_cache_preserved (src : HazardSource) (prov : NetProvider)
    (req : RouteRequest) (s : ServerState) (k : Int × Int × Int × Int) (G₀ : Graph)
    (h : alookup s.graph_cache k = some G₀) :
    alookup ((calculate_route src prov req s).2.graph_cache) k = some G₀ := by
  unfold calculate_route calculate_route_with
  split
  · exact h
  · rename_i hotspots wc hW
    split
    · rename_i gc hG
      have hx := obtainGraph_preserves prov s.graph_cache
        (max req.start_lat req.end_lat + 1000)
        (min req.start_lat req.end_lat - 1000)
        (max req.start_lon req.end_lon + 1000)
        (min req.start_lon req.end_lon - 1000) h
      rw [hG] at hx
      exact hx
    · rename_i G gc hG
      have hgc : alookup gc k = some G₀ := by
        have hx := obtainGraph_preserves prov s.graph_cache
          (max req.start_lat req.end_lat + 1000)
          (min req.start_lat req.end_lat - 1000)
          (max req.start_lon req.end_lon + 1000)
          (min req.start_lon req.end_lon - 1000) h
        rw [hG] at hx
        exact hx
      split
      · exact hgc
      · split
        · exact hgc
        · split
          · exact hgc
          · exact hgc

/-- Witness for C7: the fixture cache entry for `wKey` is intact after a
full successful `calculate_route` call. -/
theorem claim_C7_witness :
    alookup wState.graph_cache wKey = some wG ∧
    alookup ((calculate_route wSrc wProv wReq wState).2.graph_cache) wKey = some wG :=
  ⟨by decide, claim_C7_cache_preserved wSrc wProv wReq wState wKey wG (by decide)⟩

/-- When both projections succeed but no path connects them, the route
computation of `main.py:104-109` raises `NetworkXNoPath`. -/
theorem safe_route_nodes_noPath {G : Graph} {excl : Finset Nat}
    {startPt endPt : Int × Int} {a b : Nat}
    (hs : nearest_nodes (remove_nodes G excl) startPt.2 startPt.1 = some a)
    (ht : nearest_nodes (remove_nodes G excl) endPt.2 endPt.1 = some b)
    (hna : astar_path (remove_nodes G excl) a b = none) :
    safe_route_nodes G excl startPt endPt = .error .noPath := by
  simp only [safe_route_nodes, hs, ht, hna]

/-- C5: if the two projected endpoints are not connected by any walk in the
safe subgraph, `calculate_route` answers with the user-facing HTTP 404
`"Could not find a safe path."` outcome, and in particular never with the
internal-error (HTTP 500) outcome. -/
theorem claim_C5_no_safe_path_404 (src : HazardSource) (prov : NetProvider)
    (req : RouteRequest) (s : ServerState) (hotspots : List Hazard)
    (wc : List ((Int × String) × List Hazard)) (G : Graph)
    (gc : List ((Int × Int × Int × Int) × Graph)) (excl : Finset Nat) (a b : Nat)
    (hW : get_wildfires src s.wildfire_data_cache 2015 "CA" = (.ok hotspots, wc))
    (hG : obtainGraph prov s.graph_cache (max req.start_lat req.end_lat + 1000)
        (min req.start_lat req.end_lat - 1000) (max req.start_lon req.end_lon + 1000)
        (min req.start_lon req.end_lon - 1000) = (some G, gc))
    (hX : computeExcludedNodes G (max req.start_lat req.end_lat + 1000)
        (min req.start_lat req.end_lat - 1000) (max req.start_lon req.end_lon + 1000)
        (min req.start_lon req.end_lon - 1000) 1000 hotspots = .ok excl)
    (hs : nearest_nodes (remove_nodes G excl) req.start_lon req.start_lat = some a)
    (ht : nearest_nodes (remove_nodes G excl) req.end_lon req.end_lat = some b)
    (hnp : ¬ ∃ es, walkFrom (remove_nodes G excl) a b es) :
    (calculate_route src prov req s).1
      = .httpError 404 "Could not find a safe path." ∧
    ∀ d, (calculate_route src prov req s).1 ≠ .httpError 500 d := by
  have hna : astar_path (remove_nodes G excl) a b = none :=
    astar_path_eq_none _ hnp
  have hsr : safe_route_nodes G excl (req.start_lat, req.start_lon)
      (req.end_lat, req.end_lon) = .error .noPath :=
    safe_route_nodes_noPath hs ht hna
  have hrun : (calculate_route src prov req s).1
      = .httpError 404 "Could not find a safe path." := by
    unfold calculate_route calculate_route_with
    simp only [hW, hG, hX, hsr, translateExc]
  refine ⟨hrun, ?_⟩
  intro d hd
  rw [hrun] at hd
  simp at hd

/-- Witness for C5: on a two-node network with no edges, the run reaches
the A* search with projections `1` and `2` and answers 404. -/
theorem claim_C5_witness :
    get_wildfires wSrc wStateNoPath.wildfire_data_cache 2015 "CA"
      = (.ok [wHazOut], wStateNoPath.wildfire_data_cache) ∧
    obtainGraph wProv wStateNoPath.graph_cache
      (max wReq.start_lat wReq.end_lat + 1000)
      (min wReq.start_lat wReq.end_lat - 1000)
      (max wReq.start_lon wReq.end_lon + 1000)
      (min wReq.start_lon wReq.end_lon - 1000)
      = (some wG2, wStateNoPath.graph_cache) ∧
    computeExcludedNodes wG2 (max wReq.start_lat wReq.end_lat + 1000)
      (min wReq.start_lat wReq.end_lat - 1000)
      (max wReq.start_lon wReq.end_lon + 1000)
      (min wReq.start_lon wReq.end_lon - 1000) 1000 [wHazOut] = .ok ∅ ∧
    nearest_nodes (remove_nodes wG2 ∅) wReq.start_lon wReq.start_lat = some 1 ∧
    nearest_nodes (remove_nodes wG2 ∅) wReq.end_lon wReq.end_lat = some 2 ∧
    (¬ ∃ es, walkFrom (remove_nodes wG2 ∅) 1 2 es) ∧
    ((calculate_route wSrc wProv wReq wStateNoPath).1
      = .httpError 404 "Could not find a safe path." ∧
     ∀ d, (calculate_route wSrc wProv wReq wStateNoPath).1 ≠ .httpError 500 d) := by
  have hnp : ¬ ∃ es, walkFrom (remove_nodes wG2 ∅) 1 2 es := by
    rintro ⟨es, hw⟩
    cases es with
    | nil => exact absurd hw (by decide)
    | cons e es' => exact List.not_mem_nil e hw.1
  exact ⟨by decide, by decide, by decide, by decide, by decide, hnp,
    claim_C5_no_safe_path_404 wSrc wProv wReq wStateNoPath [wHazOut]
      wStateNoPath.wildfire_data_cache wG2 wStateNoPath.graph_cache ∅ 1 2
      (by decide) (by decide) (by decide) (by decide) (by decide) hnp⟩

/-- Counterexample to C4: with empty caches, a hazard source returning the
empty list makes `calculate_route` fail with the internal-error outcome
(the HTTP 404 raised inside `get_wildfires` by `if not hotspots` is caught
by the blanket `except Exception` and re-raised as HTTP 500) — it is not
treated as "no exclusions" — and a failing hazard source (`None`) produces
the very same response, so the two cases are not distinguishable. -/
theorem claim_C4_counterexample :
    (calculate_route wSrcEmpty wProv wReq wStateEmpty).1
      = .httpError 500
        "An internal server error occurred: 404: No wildfire data found for the specified year and state." ∧
    (calculate_route wSrcErr wProv wReq wStateEmpty).1
      = (calculate_route wSrcEmpty wProv wReq wStateEmpty).1 :=
  ⟨by decide, by decide⟩

/-- C4 as amended: when the wildfire cache has no entry for `(2015, 'CA')`
and the hazard source returns an empty sequence, `calculate_route` fails
with the internal-error translation of the 404 raised by `get_wildfires`
(leaving the caches unchanged), and a hazard source that fails outright
produces exactly the same caller-visible outcome: an empty hazard list and
a provider error are conflated, not distinguishable. -/
theorem claim_C4_empty_conflated_with_error (prov : NetProvider)
    (req : RouteRequest) (s : ServerState) (src srcErr : HazardSource)
    (hmiss : alookup s.wildfire_data_cache (2015, "CA") = none)
    (hempty : src 2015 "CA" = some [])
    (herr : srcErr 2015 "CA" = none) :
    calculate_route src prov req s
      = (translateExc
          (.http 404 "No wildfire data found for the specified year and state."), s) ∧
    calculate_route srcErr prov req s = calculate_route src prov req s := by
  have h₁ : calculate_route src prov req s
      = (translateExc
          (.http 404 "No wildfire data found for the specified year and state."), s) := by
    unfold calculate_route calculate_route_with get_wildfires
    rw [hmiss, hempty]
  have h₂ : calculate_route srcErr prov req s
      = (translateExc
          (.http 404 "No wildfire data found for the specified year and state."), s) := by
    unfold calculate_route calculate_route_with get_wildfires
    rw [hmiss, herr]
  exact ⟨h₁, h₂.trans h₁.symm⟩

/-- Witness for the amended C4 at the concrete fixtures. -/
theorem claim_C4_witness :
    alookup wStateEmpty.wildfire_data_cache (2015, "CA") = none ∧
    wSrcEmpty 2015 "CA" = some [] ∧
    wSrcErr 2015 "CA" = none ∧
    (calculate_route wSrcEmpty wProv wReq wStateEmpty
      = (translateExc
          (.http 404 "No wildfire data found for the specified year and state."),
         wStateEmpty) ∧
     calculate_route wSrcErr wProv wReq wStateEmpty
      = calculate_route wSrcEmpty wProv wReq wStateEmpty) :=
  ⟨rfl, rfl, rfl,
    claim_C4_empty_conflated_with_error wProv wReq wStateEmpty wSrcEmpty wSrcErr
      rfl rfl rfl⟩

/-- Counterexample to C9: latitude 200 degrees (2000000 fixed-point units,
far above the valid bound of 90 degrees = 900000 units) is not rejected:
`RouteRequest` performs no range validation, and `calculate_route` proceeds
to network retrieval and even returns a route successfully. -/
theorem claim_C9_counterexample :
    ((2000000 : Int) > 900000) ∧
    (calculate_route wSrc wProv wReqBad wStateEmpty).1 = .ok [(100100, 200100)] :=
  ⟨by decide, by decide⟩

/-- Every exception caught by `calculate_route` is reported as HTTP 404 or
HTTP 500. -/
theorem translateExc_cases (e : Exc) :
    (∃ d, translateExc e = .httpError 404 d) ∨
    (∃ d, translateExc e = .httpError 500 d) := by
  cases e with
  | noPath => exact Or.inl ⟨_, rfl⟩
  | http s d => exact Or.inr ⟨_, rfl⟩
  | other m => exact Or.inr ⟨_, rfl⟩

/-- C9 as amended: `calculate_route` has no `InvalidRequest` (HTTP 400/422)
outcome at all: for every request — malformed coordinates included — the
response is a route, HTTP 404, or HTTP 500; out-of-range coordinates flow
into network retrieval unvalidated. -/
theorem claim_C9_no_invalid_request_outcome (src : HazardSource)
    (prov : NetProvider) (req : RouteRequest) (s : ServerState) :
    (∃ r, (calculate_route src prov req s).1 = .ok r) ∨
    (∃ d, (calculate_route src prov req s).1 = .httpError 404 d) ∨
    (∃ d, (calculate_route src prov req s).1 = .httpError 500 d) := by
  unfold calculate_route calculate_route_with
  split
  · rename_i e wc hW
    rcases translateExc_cases e with ⟨d, hd⟩ | ⟨d, hd⟩
    · exact Or.inr (Or.inl ⟨d, hd⟩)
    · exact Or.inr (Or.inr ⟨d, hd⟩)
  · split
    · exact Or.inr (Or.inr ⟨_, rfl⟩)
    · split
      · rename_i e hX
        rcases translateExc_cases e with ⟨d, hd⟩ | ⟨d, hd⟩
        · exact Or.inr (Or.inl ⟨d, hd⟩)
        · exact Or.inr (Or.inr ⟨d, hd⟩)
      · split
        · rename_i e hR
          rcases translateExc_cases e with ⟨d, hd⟩ | ⟨d, hd⟩
          · exact Or.inr (Or.inl ⟨d, hd⟩)
          · exact Or.inr (Or.inr ⟨d, hd⟩)
        · split
          · rename_i e hC
            rcases translateExc_cases e with ⟨d, hd⟩ | ⟨d, hd⟩
            · exact Or.inr (Or.inl ⟨d, hd⟩)
            · exact Or.inr (Or.inr ⟨d, hd⟩)
          · exact Or.inl ⟨_, rfl⟩

/-- C10: the request body carries only the four endpoint coordinates, so
`calculate_route` is exactly the planner instantiated with the fixed hazard
filter `year=2015, state='CA'` and the fixed 1000 m danger radius, and any
two requests with identical coordinates (under the same caches and
providers) produce identical responses and identical cache states. -/
theorem claim_C10_fixed_filter (src : HazardSource) (prov : NetProvider)
    (s : ServerState) (req₁ req₂ : RouteRequest)
    (h₁ : req₁.start_lat = req₂.start_lat) (h₂ : req₁.start_lon = req₂.start_lon)
    (h₃ : req₁.end_lat = req₂.end_lat) (h₄ : req₁.end_lon = req₂.end_lon) :
    calculate_route src prov req₁ s
      = calculate_route_with 2015 "CA" 1000 src prov req₁ s ∧
    calculate_route src prov req₁ s = calculate_route src prov req₂ s := by
  have heq : req₁ = req₂ := by
    cases req₁
    cases req₂
    simp_all
  exact ⟨rfl, by rw [heq]⟩

/-- Witness for C10 at the concrete fixtures. -/
theorem claim_C10_witness :
    wReq.start_lat = wReq.start_lat ∧ wReq.start_lon = wReq.start_lon ∧
    wReq.end_lat = wReq.end_lat ∧ wReq.end_lon = wReq.end_lon ∧
    (calculate_route wSrc wProv wReq wState
      = calculate_route_with 2015 "CA" 1000 wSrc wProv wReq wState ∧
     calculate_route wSrc wProv wReq wState
      = calculate_route wSrc wProv wReq wState) :=
  ⟨rfl, rfl, rfl, rfl,
    claim_C10_fixed_filter wSrc wProv wState wReq wReq rfl rfl rfl rfl⟩

end ClimateSentinel
